import Mathlib

/-!
Verification of the value-coercion and grid-indexing layer of the
spreadsheet-facade backend (src/back_end/main.py).

The Python source is shallowly embedded below.  Conventions of the embedding:

* Python strings are Lean `String`s, handled through their character lists.
  String helpers such as `str.strip`, `str.upper`, `str.lower` are modelled
  character-wise.  For `str.upper` the model maps exactly the characters
  whose CPython uppercase image is a single `A`-`Z` letter — the ASCII
  letters plus U+0131 (dotless i, to `I`) and U+017F (long s, to `S`), the
  only two such non-ASCII characters — and keeps every other character
  unchanged.  CPython additionally sends some characters to single
  uppercase images outside `A`-`Z` or to multi-character expansions (for
  instance U+00DF to `SS`); no such image is a single `A`-`Z` letter or
  contains a newline and uppercasing never shortens a string, so those
  mappings cannot change which designators pass the `^[A-Z]$` guard of
  `col_to_index`, the only consumer of uppercased text the claims reason
  about.
* Python `int(...)` / `float(...)` literal parsing is modelled by
  `pyIntParse` / `pyFloatParse` over ASCII digit strings, including the
  CPython underscore-separator rules; non-ASCII decimal digits are outside
  the model.  IEEE-754 rounding is abstracted: a parsed float value is kept
  as an exact rational (`PyFloat.finite`) or as an infinity/NaN marker.
* `HTTPException` raising is modelled by `Except SheetErr`; the distinct
  `detail` messages of the source are distinguished by the `SheetErr`
  constructors.  An uncaught Python `TypeError` (reachable in `add_cols`
  through `ord` on a string whose length is not 1) is `SheetErr.pyError`.
* The pandas `DataFrame` built by `SheetOps._load_df` is the `Grid`
  structure: the column labels are `headers`, the rows are `dataRows`.
  `DataFrame.empty` is true when either axis has length zero, and `len(df)`
  is the number of rows; both facts are used where noted.
* Effects on the worksheet (`update_cell`, `update`) are reified as
  `WriteOp` values returned by the operation.
-/

deriving instance DecidableEq for Except

/-! ## Python string primitives -/

/-- Characters stripped by Python `str.strip()` (the Unicode whitespace
set, written out by code point). -/
def pyIsSpace (c : Char) : Bool :=
  let n := c.toNat
  (9 ≤ n && n ≤ 13) || (28 ≤ n && n ≤ 31) || n = 32 || n = 133 || n = 160 ||
  n = 0x1680 || (0x2000 ≤ n && n ≤ 0x200a) || n = 0x2028 || n = 0x2029 ||
  n = 0x202f || n = 0x205f || n = 0x3000

/-- Remove leading and trailing whitespace from a character list. -/
def trimChars (l : List Char) : List Char :=
  ((l.dropWhile pyIsSpace).reverse.dropWhile pyIsSpace).reverse

/-- Python `str.strip()`. -/
def pyStrip (s : String) : String := ⟨trimChars s.data⟩

/-- Character-wise model of Python `str.upper`, exact on every character
whose CPython uppercase image is a single `A`-`Z` letter: the ASCII
letters, plus the only two other such characters, U+0131 (dotless i, to
`I`) and U+017F (long s, to `S`).  Other characters are kept unchanged:
their CPython images are single characters outside `A`-`Z` or
multi-character expansions, neither of which can pass the `^[A-Z]$`
column guard fed from this model (no uppercase image is a single `A`-`Z`
letter beyond the cases above, none contains a newline, and uppercasing
never shortens a string). -/
def pyUpperChar (c : Char) : Char :=
  if 'a' ≤ c ∧ c ≤ 'z' then Char.ofNat (c.toNat - 32)
  else if c = 'ı' then 'I'
  else if c = 'ſ' then 'S'
  else c

/-- Character-wise model of Python `str.lower` (ASCII letters). -/
def pyLowerChar (c : Char) : Char :=
  if 'A' ≤ c ∧ c ≤ 'Z' then Char.ofNat (c.toNat + 32) else c

/-- Python `str.upper()`. -/
def pyUpper (s : String) : String := ⟨s.data.map pyUpperChar⟩

/-- Python `str.lower()`. -/
def pyLower (s : String) : String := ⟨s.data.map pyLowerChar⟩

/-- ASCII letter, the character class of the regex `[A-Za-z]`. -/
def isAsciiLetterChar (c : Char) : Bool :=
  ('A' ≤ c ∧ c ≤ 'Z') || ('a' ≤ c ∧ c ≤ 'z')

/-- String consisting of exactly one ASCII letter: Python
`re.fullmatch(r"[A-Za-z]", s)`. -/
def isSingleAsciiLetter (s : String) : Bool :=
  match s.data with
  | [c] => isAsciiLetterChar c
  | _ => false

/-- Characters whose Python uppercase form is one letter in the `A`-`Z`
range: the ASCII letters plus dotless i (U+0131) and long s (U+017F).
These are exactly the one-character designators that pass the uppercase
regex guard of the set-cell path. -/
def upperIsAZ (c : Char) : Bool :=
  isAsciiLetterChar c || c = 'ı' || c = 'ſ'

/-! ## Python numeric literal parsing -/

def isAsciiDigit (c : Char) : Bool := '0' ≤ c ∧ c ≤ '9'

/-- Rejects the CPython-invalid double underscore inside a digit run. -/
def noDoubleUnderscore : List Char → Bool
  | '_' :: '_' :: _ => false
  | _ :: t => noDoubleUnderscore t
  | [] => true

/-- A valid CPython digit run: nonempty, digits with optional single
underscores strictly between digits. -/
def validDigitRun (l : List Char) : Bool :=
  !l.isEmpty && l.all (fun c => isAsciiDigit c || c = '_') &&
  !(l.head? == some '_') && !(l.getLast? == some '_') && noDoubleUnderscore l

/-- Numeric value of a digit run, ignoring underscores. -/
def digitsVal (l : List Char) : Nat :=
  (l.filter (fun c => c ≠ '_')).foldl (fun acc c => acc * 10 + (c.toNat - 48)) 0

/-- Consume one optional leading sign. -/
def splitSign : List Char → Int × List Char
  | '+' :: t => (1, t)
  | '-' :: t => (-1, t)
  | l => (1, l)

/-- Model of CPython `int(s)` for a decimal string: optional surrounding
whitespace, optional sign, then a digit run.  `none` is `ValueError`. -/
def pyIntParse (s : String) : Option Int :=
  let (sign, body) := splitSign (trimChars s.data)
  if validDigitRun body then some (sign * digitsVal body) else none

/-- Value of a Python float with IEEE-754 rounding abstracted away:
the exact decimal value, or an infinity/NaN marker. -/
inductive PyFloat where
  | finite (q : ℚ)
  | inf (neg : Bool)
  | nan
deriving DecidableEq

/-- Exponent part of a float literal: optional sign then a digit run. -/
def expValue (l : List Char) : Option Int :=
  let (es, ebody) := splitSign l
  if validDigitRun ebody then some (es * digitsVal ebody) else none

/-- Mantissa of a float literal: digit runs around at most one dot, with at
least one digit overall. -/
def mantissaValue (l : List Char) : Option ℚ :=
  match l.splitOn '.' with
  | [ip] => if validDigitRun ip then some ((digitsVal ip : ℚ)) else none
  | [ip, fp] =>
    let fracLen := (fp.filter (fun c => c ≠ '_')).length
    if validDigitRun ip && validDigitRun fp then
      some ((digitsVal ip : ℚ) + (digitsVal fp : ℚ) / (10 : ℚ) ^ fracLen)
    else if validDigitRun ip && fp.isEmpty then
      some ((digitsVal ip : ℚ))
    else if ip.isEmpty && validDigitRun fp then
      some ((digitsVal fp : ℚ) / (10 : ℚ) ^ fracLen)
    else none
  | _ => none

/-- Scale a mantissa by a signed power of ten. -/
def applyExp (q : ℚ) (e : Int) : ℚ :=
  if 0 ≤ e then q * (10 : ℚ) ^ e.toNat else q / (10 : ℚ) ^ (-e).toNat

/-- Model of CPython `float(s)`: optional surrounding whitespace, optional
sign, then case-insensitive `inf`/`infinity`/`nan` or a decimal mantissa
with an optional exponent.  `none` is `ValueError`. -/
def pyFloatParse (s : String) : Option PyFloat :=
  let (sign, body0) := splitSign (trimChars s.data)
  let body := body0.map pyLowerChar
  if body = "inf".data ∨ body = "infinity".data then some (.inf (sign < 0))
  else if body = "nan".data then some .nan
  else
    match body.splitOn 'e' with
    | [m] => (mantissaValue m).map fun q => .finite ((sign : ℚ) * q)
    | [m, ex] =>
      match mantissaValue m, expValue ex with
      | some q, some e => some (.finite ((sign : ℚ) * applyExp q e))
      | _, _ => none
    | _ => none

/-! ## Cell values -/

/-- Value produced by `smart_parse` (a Python str, bool, int or float). -/
inductive PyVal where
  | str (s : String)
  | bool (b : Bool)
  | int (n : Int)
  | float (f : PyFloat)
deriving DecidableEq

/-- Embedding of `smart_parse` (main.py:88-102): strip, empty string, the
case-insensitive true/false words, `int(...)`, `float(...)`, then string
passthrough.  The two Python `try`/`except ValueError` blocks are the two
`Option` matches; no other exception is reachable, so the function is
total. -/
def smart_parse (raw : String) : PyVal :=
  let s := pyStrip raw
  if s = "" then .str ""
  else if pyLower s = "true" ∨ pyLower s = "false" then .bool (pyLower s = "true")
  else
    match pyIntParse s with
    | some n => .int n
    | none =>
      match pyFloatParse s with
      | some f => .float f
      | none => .str s

/-- Argument universe of `classify` (main.py:74-81).  The source receives
`None`, Python strings, and (in raw-cell representations) bools and
numbers; `other` stands for any further built-in object, for which both
`v == ""` and the two isinstance checks are false. -/
inductive PyObj where
  | none
  | bool (b : Bool)
  | int (n : Int)
  | float (f : PyFloat)
  | str (s : String)
  | other
deriving DecidableEq

/-- Python `v == ""` for a built-in value: true only for the empty string. -/
def pyEqEmptyString : PyObj → Bool
  | .str s => s = ""
  | _ => false

/-- Python `isinstance(v, bool)`. -/
def pyIsBool : PyObj → Bool
  | .bool _ => true
  | _ => false

/-- Python `isinstance(v, (int, float))` on a value already known not to be
a bool (the bool case is consumed by the preceding branch of `classify`). -/
def pyIsIntOrFloat : PyObj → Bool
  | .int _ => true
  | .float _ => true
  | _ => false

/-- Embedding of `classify` (main.py:74-81). -/
def classify (v : PyObj) : String :=
  if v = PyObj.none || pyEqEmptyString v then "blank"
  else if pyIsBool v then "boolean"
  else if pyIsIntOrFloat v then "number"
  else "string"

/-! ## The grid (DataFrame view of the worksheet) -/

/-- The pandas DataFrame built by `_load_df` together with the
`self.headers` list: column labels plus rows of cell strings. -/
structure Grid where
  headers : List String
  dataRows : List (List String)
deriving DecidableEq

/-- The data-model invariant `_load_df` establishes: every data row has
exactly one cell per header.  (Pandas enforces this at DataFrame
construction.) -/
def Grid.Wf (g : Grid) : Prop :=
  ∀ r ∈ g.dataRows, r.length = g.headers.length

instance (g : Grid) : Decidable g.Wf :=
  List.decidableBAll _ g.dataRows

/-- Row normalization step of `_load_df` (main.py:139-145): right-pad a
short row with empty strings, truncate a long one. -/
def normalizeRow (ncol : Nat) (r : List String) : List String :=
  if r.length < ncol then r ++ List.replicate (ncol - r.length) ""
  else if r.length > ncol then r.take ncol
  else r

/-- Embedding of `SheetOps._load_df` (main.py:122-147).  `vals` is the
row-major matrix returned by the worksheet fetch.  An empty fetch yields
empty headers and an empty DataFrame; otherwise the first row (stripped)
becomes the headers and the remaining rows are normalized to the header
width. -/
def _load_df (vals : List (List String)) : Grid :=
  match vals with
  | [] => ⟨[], []⟩
  | first :: rest =>
    let headers := first.map pyStrip
    let ncol := headers.length
    ⟨headers, rest.map (normalizeRow ncol)⟩

/-! ## Errors -/

/-- The `HTTPException(400, ...)` values raised by the source, separated by
their `detail` message, plus `pyError` for an uncaught Python `TypeError`
(reachable only through `ord` in `add_cols`). -/
inductive SheetErr where
  /-- detail `Column {col} out of range.` from `_col_to_zero_based`. -/
  | outOfRange (col : String)
  /-- detail `Invalid column: {col}. Use A-Z or a header name.` -/
  | invalidColumn (col : String)
  /-- detail `Row must be >= 1.` from `get_cell_value`. -/
  | invalidRow
  /-- detail `Invalid col (A-Z only): {col}` from `col_to_index`. -/
  | invalidColLetter (col : String)
  /-- An exception other than `HTTPException` escaping the handler. -/
  | pyError
deriving DecidableEq

/-! ## Address resolution -/

/-- Python `c in headers` / `headers.index(c)` (first match), fused:
the lookup branch of `_col_to_zero_based`. -/
def headerLookup (headers : List String) (col c : String) : Except SheetErr Nat :=
  if headers.contains c then .ok (List.indexOf c headers)
  else .error (.invalidColumn col)

/-- Embedding of `SheetOps._col_to_zero_based` (main.py:149-170).  The
designator is stripped; a single ASCII letter resolves case-insensitively
to `letter - 'A'` with a bound check against the header count, anything
else is looked up as an exact header name.  The `idx < 0` disjunct of the
source is mirrored by computing `idx` in `Int`. -/
def _col_to_zero_based (headers : List String) (col : String) : Except SheetErr Nat :=
  let c := pyStrip col
  match c.data with
  | [ch] =>
    if isAsciiLetterChar ch then
      let idx : Int := ((pyUpperChar ch).toNat : Int) - 65
      if idx < 0 ∨ (headers.length : Int) ≤ idx then .error (.outOfRange col)
      else .ok idx.toNat
    else headerLookup headers col c
  | _ => headerLookup headers col c

/-- Embedding of `col_to_index` (main.py:63-67), used only by the
`set-cell` endpoint.  The argument is uppercased first and then matched
against `re.match(r"^[A-Z]$", ...)`, so besides `a`-`z`/`A`-`Z` the two
special characters U+0131 and U+017F are accepted as well (their
uppercase forms are `I` and `S`).  Per CPython regex semantics the dollar
anchor also matches just before one trailing newline, so an accepted
character followed by a single newline passes the guard — and then `ord`
on the two-character string raises an uncaught `TypeError` (`pyError`).
On acceptance the result is the 1-based index `upper(char) - 'A' + 1`;
there is no bound check of any kind. -/
def col_to_index (col : String) : Except SheetErr Nat :=
  let c := pyUpper col
  match c.data with
  | [ch] =>
    if 'A' ≤ ch ∧ ch ≤ 'Z' then .ok (ch.toNat - 65 + 1)
    else .error (.invalidColLetter c)
  | [ch, nl] =>
    if ('A' ≤ ch ∧ ch ≤ 'Z') ∧ nl = '\n' then .error .pyError
    else .error (.invalidColLetter c)
  | _ => .error (.invalidColLetter c)

/-! ## Bounds scan -/

/-- Cell counts as used when its stripped text is nonempty: the
`col.str.strip().ne("")` test of `_actual_last_row_col`, also the
`bool(str(h).strip())` test on headers. -/
def cellUsed (s : String) : Bool := pyStrip s ≠ ""

/-- Row has some used cell: one entry of `non_empty.any(axis=1)`. -/
def rowUsed (r : List String) : Bool := r.any cellUsed

/-- Index of the last `true` entry of a boolean list, if any.  This is
both `rows_any[rows_any].index.max()` (pandas positional index equals the
list position here) and the backward scan with break of the column loop. -/
def lastTrueIdx : List Bool → Option Nat
  | [] => none
  | b :: t =>
    match lastTrueIdx t with
    | some k => some (k + 1)
    | none => if b then some 0 else none

/-- Column `j` of the DataFrame has some used cell: one entry of
`non_empty.any(axis=0)`. -/
def dataColAny (g : Grid) (j : Nat) : Bool :=
  g.dataRows.any fun r => cellUsed (r.getD j "")

/-- Specification-side predicate of the bounds claim: column `j` counts as
used when its header is nonempty after stripping or some data row has
nonempty stripped text at position `j`. -/
def colUsed (g : Grid) (j : Nat) : Bool :=
  cellUsed (g.headers.getD j "") || dataColAny g j

/-- Embedding of `SheetOps._actual_last_row_col` (main.py:172-210).
`df.empty` is true when the DataFrame has zero rows or zero columns, i.e.
when `dataRows` or `headers` is empty; in that branch the source reports
`last_col = len(self.headers)` without any used-column scan.  Otherwise
the last row with a used cell gives `last_row` (spreadsheet numbering,
header row is 1), and the last column whose header or data is used gives
`last_col`.  In the scan branch `headers` is nonempty, so the
`if self.headers` conditional on `combined` always zips. -/
def _actual_last_row_col (g : Grid) : Nat × Nat :=
  if g.dataRows.isEmpty || g.headers.isEmpty then
    ((if g.headers.isEmpty then 0 else 1), g.headers.length)
  else
    let rows_any := g.dataRows.map rowUsed
    let last_row : Nat :=
      match lastTrueIdx rows_any with
      | some i => 2 + i
      | none => 1
    let header_any := g.headers.map cellUsed
    let cols_any := (List.range g.headers.length).map (dataColAny g)
    let combined := List.zipWith (· || ·) header_any cols_any
    let last_col : Nat :=
      match lastTrueIdx combined with
      | some j => j + 1
      | none => 0
    (last_row, last_col)

/-- Embedding of `SheetOps.bounds` (main.py:216-223). -/
def bounds (g : Grid) : Nat × Nat × List String :=
  let (lastRow, lastCol) := _actual_last_row_col g
  (lastRow, lastCol, g.headers)

/-! ## Cell read -/

/-- The dictionary returned by `SheetOps.get_cell_value`. -/
structure CellOut where
  row : Int
  col : String
  header : String
  value : String
deriving DecidableEq

/-- Embedding of `SheetOps.get_cell_value` (main.py:272-296).  The row is
checked before the column resolves.  `self.headers[c0] if self.headers
else ""` is `headers.getD c0 ""`: a successful resolution guarantees
`c0 < headers.length` whenever `headers` is nonempty, and the default
covers the empty-headers arm.  `len(self.df)` is the number of data rows.
The final `"" if v is None else str(v)` is the identity here because every
cell of the DataFrame is a string. -/
def get_cell_value (g : Grid) (row : Int) (col : String) : Except SheetErr CellOut :=
  if row < 1 then .error .invalidRow
  else
    match _col_to_zero_based g.headers col with
    | .error e => .error e
    | .ok c0 =>
      let header := g.headers.getD c0 ""
      let v : String :=
        if row = 1 then header
        else
          let r0 : Int := row - 2
          if r0 < 0 ∨ (g.dataRows.length : Int) ≤ r0 then ""
          else (g.dataRows.getD r0.toNat []).getD c0 ""
      .ok ⟨row, col, header, v⟩

/-- The JSON payload of the `/cell` endpoint (main.py:461-476), minus the
constant `ok` field. -/
structure GetCellResp where
  row : Int
  col : String
  featureName : String
  value : String
  type : String
deriving DecidableEq

/-- Embedding of the `/cell` handler `get_cell` (main.py:461-476):
delegates to `get_cell_value`, substitutes `(no header)` for a falsy
header, and classifies the returned value string. -/
def get_cell (g : Grid) (row : Int) (col : String) : Except SheetErr GetCellResp :=
  match get_cell_value g row col with
  | .error e => .error e
  | .ok c =>
    .ok ⟨row, pyUpper col,
         (if c.header = "" then "(no header)" else c.header),
         c.value, classify (.str c.value)⟩

/-! ## Writes -/

/-- A worksheet mutation issued by an operation, in issue order.
`updateRange` keeps the A1 range of the source structurally: its column
letter and the first and last row numbers. -/
inductive WriteOp where
  | updateCell (row : Int) (col : Int) (value : PyVal)
  | updateRange (colLetter : Char) (startRow endRow : Int) (vals : List ℚ)
deriving DecidableEq

/-- Result of `SheetOps.add_cols`: the writes issued plus the returned
dictionary. -/
structure AddColsOut where
  writes : List WriteOp
  writtenRows : Nat
  outCol : String
  outHeader : String
deriving DecidableEq

/-- The `pd.to_numeric(..., errors="coerce").fillna(0.0)` coercion of one
cell: parse failure (NaN after coercion) becomes 0.  The numeric parser of
pandas is an external library routine, so it is a parameter `toNum`; a
float NaN result is identified with parse failure, which `fillna` makes
equivalent. -/
def toNumCoerce (toNum : String → Option ℚ) (s : String) : ℚ :=
  (toNum s).getD 0

/-- A sample numeric parser (integer literals only), used to exercise the
parser-parametric aggregation theorem at concrete inputs. -/
def toNumEx (s : String) : Option ℚ :=
  (pyIntParse s).map fun n => (n : ℚ)

/-- Embedding of `SheetOps.add_cols` (main.py:225-249).  The two input
columns resolve through `_col_to_zero_based`; the output column is taken
as a raw letter with `ord(outCol.upper()) - ord("A")` and no bound check.
`ord` on a string whose length differs from 1 raises `TypeError`
(`pyError` here; the endpoint only ever passes `"C"`).  Column extraction
`df.iloc[:, idx]` reads cell `idx` of every data row.  `chr(ord("A") +
o_idx)` is total here because `o_idx >= -65`. -/
def add_cols (toNum : String → Option ℚ) (g : Grid)
    (colA colB outCol outHeader : String) : Except SheetErr AddColsOut :=
  match _col_to_zero_based g.headers colA with
  | .error e => .error e
  | .ok aIdx =>
  match _col_to_zero_based g.headers colB with
  | .error e => .error e
  | .ok bIdx =>
  match (pyUpper outCol).data with
  | [oc] =>
    let oIdx : Int := (oc.toNat : Int) - 65
    let a := g.dataRows.map fun r => toNumCoerce toNum (r.getD aIdx "")
    let b := g.dataRows.map fun r => toNumCoerce toNum (r.getD bIdx "")
    let s := List.zipWith (· + ·) a b
    let headerWrite := WriteOp.updateCell 1 (oIdx + 1) (.str outHeader)
    let out_vals := s
    let writes :=
      if out_vals.isEmpty then [headerWrite]
      else
        [headerWrite,
         WriteOp.updateRange (Char.ofNat (65 + oIdx).toNat) 2
           (2 + (out_vals.length : Int) - 1) out_vals]
    .ok ⟨writes, out_vals.length, outCol, outHeader⟩
  | _ => .error .pyError

/-- Result of the `/set-cell` handler: the single write issued plus the
response fields computable without the read-back (the `writtenValue` and
`writtenType` fields re-read the worksheet, an external-store step). -/
structure SetCellOut where
  write : WriteOp
  row : Int
  colUpper : String
  colIdx : Nat
deriving DecidableEq

/-- Embedding of the `/set-cell` handler `set_cell` (main.py:484-509):
uppercase the designator, resolve it through the letter-only
`col_to_index` (never through `_col_to_zero_based`, and with no grid in
scope at all), smart-parse the value (`value or ""` sends a missing value
to the empty string), and write the parsed value at the addressed cell. -/
def set_cell (row : Int) (col : String) (value : Option String) :
    Except SheetErr SetCellOut :=
  let colU := pyUpper col
  match col_to_index colU with
  | .error e => .error e
  | .ok idx =>
    let parsed := smart_parse (value.getD "")
    .ok ⟨.updateCell row (idx : Int) parsed, row, colU, idx⟩

/-! ## Helper lemmas -/

theorem char_le_iff_toNat {a b : Char} : a ≤ b ↔ a.toNat ≤ b.toNat := by
  rw [Char.le_def, UInt32.le_def, BitVec.le_def]
  exact Iff.rfl

theorem toNat_ofNat_of_valid {n : Nat} (h : n.isValidChar) :
    (Char.ofNat n).toNat = n := by
  simp [Char.ofNat, h, Char.ofNatAux, Char.toNat, UInt32.toNat, BitVec.toNat_ofNatLt]

theorem pyUpperChar_toNat_of_lower {c : Char} (h1 : 97 ≤ c.toNat) (h2 : c.toNat ≤ 122) :
    (pyUpperChar c).toNat = c.toNat - 32 := by
  have hv : (c.toNat - 32).isValidChar := by
    unfold Nat.isValidChar
    omega
  have hif : ('a' ≤ c ∧ c ≤ 'z') := by
    constructor <;> rw [char_le_iff_toNat] <;> simpa
  rw [pyUpperChar, if_pos hif]
  exact toNat_ofNat_of_valid hv

/-- A character that is not an ASCII lowercase letter and not one of the
two special characters is fixed by the uppercase model. -/
theorem pyUpperChar_eq_of_not_special {c : Char}
    (h : ¬(97 ≤ c.toNat ∧ c.toNat ≤ 122)) (h2 : c ≠ 'ı') (h3 : c ≠ 'ſ') :
    pyUpperChar c = c := by
  have ha : ¬('a' ≤ c ∧ c ≤ 'z') := by
    intro ⟨ha1, ha2⟩
    rw [char_le_iff_toNat] at ha1 ha2
    exact h ⟨by simpa using ha1, by simpa using ha2⟩
  rw [pyUpperChar, if_neg ha, if_neg h2, if_neg h3]

/-- A character in the `A`-`Z` code range is fixed by the uppercase
model. -/
theorem pyUpperChar_fix_of_range {c : Char} (h1 : 65 ≤ c.toNat) (h2 : c.toNat ≤ 90) :
    pyUpperChar c = c := by
  apply pyUpperChar_eq_of_not_special (by omega)
  · intro heq
    rw [heq] at h2
    exact absurd h2 (by decide)
  · intro heq
    rw [heq] at h2
    exact absurd h2 (by decide)

theorem isAsciiLetterChar_iff {c : Char} :
    isAsciiLetterChar c = true ↔
      (65 ≤ c.toNat ∧ c.toNat ≤ 90) ∨ (97 ≤ c.toNat ∧ c.toNat ≤ 122) := by
  unfold isAsciiLetterChar
  simp only [Bool.or_eq_true, decide_eq_true_eq]
  constructor
  · rintro (⟨h1, h2⟩ | ⟨h1, h2⟩) <;> rw [char_le_iff_toNat] at h1 h2
    · exact Or.inl ⟨by simpa using h1, by simpa using h2⟩
    · exact Or.inr ⟨by simpa using h1, by simpa using h2⟩
  · rintro (⟨h1, h2⟩ | ⟨h1, h2⟩) <;> [left; right] <;>
      constructor <;> rw [char_le_iff_toNat] <;> simpa

/-- The uppercased form of an ASCII letter is in the `A`-`Z` code range. -/
theorem pyUpperChar_range_of_letter {c : Char} (h : isAsciiLetterChar c = true) :
    65 ≤ (pyUpperChar c).toNat ∧ (pyUpperChar c).toNat ≤ 90 := by
  rcases isAsciiLetterChar_iff.mp h with ⟨h1, h2⟩ | ⟨h1, h2⟩
  · rw [pyUpperChar_fix_of_range h1 h2]
    omega
  · rw [pyUpperChar_toNat_of_lower h1 h2]
    omega

theorem lastTrueIdx_none {l : List Bool} (h : lastTrueIdx l = none) :
    ∀ j, j < l.length → l[j]? = some false := by
  induction l with
  | nil => intro j hj; simp at hj
  | cons b t ih =>
    rw [lastTrueIdx] at h
    rcases ht : lastTrueIdx t with _ | k
    · rw [ht] at h
      have hb : b = false := by
        by_contra hb
        rw [Bool.not_eq_false] at hb
        simp [hb] at h
      intro j hj
      match j with
      | 0 => simp [hb]
      | j + 1 =>
        simp only [List.getElem?_cons_succ]
        exact ih (ht) j (by simpa using hj)
    · rw [ht] at h
      simp at h

theorem lastTrueIdx_some {l : List Bool} {k : Nat} (h : lastTrueIdx l = some k) :
    l[k]? = some true ∧ ∀ j, k < j → j < l.length → l[j]? = some false := by
  induction l generalizing k with
  | nil => simp [lastTrueIdx] at h
  | cons b t ih =>
    rw [lastTrueIdx] at h
    rcases ht : lastTrueIdx t with _ | k2
    · rw [ht] at h
      have hb : b = true := by
        by_contra hb
        simp [Bool.not_eq_true] at hb
        simp [hb] at h
      have hk : k = 0 := by
        by_contra hk
        simp [hb] at h
        omega
      subst hk
      refine ⟨by simp [hb], ?_⟩
      intro j hj hlen
      match j with
      | 0 => omega
      | j + 1 =>
        simp only [List.getElem?_cons_succ]
        exact lastTrueIdx_none ht j (by simpa using hlen)
    · rw [ht] at h
      simp only [Option.some.injEq] at h
      subst h
      obtain ⟨h1, h2⟩ := ih ht
      refine ⟨by simpa using h1, ?_⟩
      intro j hj hlen
      match j with
      | 0 => omega
      | j + 1 =>
        simp only [List.getElem?_cons_succ]
        exact h2 j (by omega) (by simpa using hlen)

theorem lastTrueIdx_some_lt {l : List Bool} {k : Nat} (h : lastTrueIdx l = some k) :
    k < l.length := by
  have := (lastTrueIdx_some h).1
  exact List.getElem?_eq_some.mp this |>.choose

theorem zipWith_or_getElem {as bs : List Bool} {i : Nat} {a b : Bool}
    (ha : as[i]? = some a) (hb : bs[i]? = some b) :
    (List.zipWith (· || ·) as bs)[i]? = some (a || b) := by
  simp [List.getElem?_zipWith, ha, hb]

/-! ## Claim C8: classify is total and deterministic -/

/-- Claim C8: `classify` is total and deterministic: every input maps to
exactly one of blank, boolean, number, string; `None` and the empty
string map to blank, bools map to boolean (the bool test runs before the
numeric test, so a bool is never "number"), ints and floats map to
number, and everything else maps to string. -/
theorem C8_classify_spec :
    (∀ v : PyObj, classify v = "blank" ∨ classify v = "boolean" ∨
       classify v = "number" ∨ classify v = "string") ∧
    classify PyObj.none = "blank" ∧
    classify (.str "") = "blank" ∧
    (∀ b, classify (.bool b) = "boolean") ∧
    (∀ n : Int, classify (.int n) = "number") ∧
    (∀ f, classify (.float f) = "number") ∧
    (∀ s, s ≠ "" → classify (.str s) = "string") ∧
    classify PyObj.other = "string" := by
  refine ⟨?_, by decide, by decide, ?_, ?_, ?_, ?_, by decide⟩
  · intro v
    cases v <;> simp [classify, pyEqEmptyString, pyIsBool, pyIsIntOrFloat]
    rename_i s
    by_cases hs : s = "" <;> simp [hs]
  · intro b; simp [classify, pyEqEmptyString, pyIsBool]
  · intro n; simp [classify, pyEqEmptyString, pyIsBool, pyIsIntOrFloat]
  · intro f; simp [classify, pyEqEmptyString, pyIsBool, pyIsIntOrFloat]
  · intro s hs; simp [classify, pyEqEmptyString, pyIsBool, pyIsIntOrFloat, hs]

/-- Witness for C8 at concrete inputs with the nonempty-string hypothesis
discharged. -/
theorem C8_witness : classify (.str "abc") = "string" :=
  C8_classify_spec.2.2.2.2.2.2.1 "abc" (by decide)

/-! ## Claim C3: smart_parse cascade and totality -/

/-- Claim C3: `smart_parse` follows its cascade on every input: strip,
empty string for a blank result, case-insensitive true/false words to a
bool, then integer parse, then float parse, then string passthrough.
Totality (no raised error) holds by construction: the embedding returns a
`PyVal` for every input, matching the source where the only two raising
subexpressions sit inside `try`/`except ValueError` blocks. -/
theorem C3_smart_parse_spec (raw : String) :
    (pyStrip raw = "" → smart_parse raw = .str "") ∧
    (pyLower (pyStrip raw) = "true" → smart_parse raw = .bool true) ∧
    (pyLower (pyStrip raw) = "false" → smart_parse raw = .bool false) ∧
    (∀ n, pyLower (pyStrip raw) ≠ "true" → pyLower (pyStrip raw) ≠ "false" →
       pyIntParse (pyStrip raw) = some n → smart_parse raw = .int n) ∧
    (∀ f, pyLower (pyStrip raw) ≠ "true" → pyLower (pyStrip raw) ≠ "false" →
       pyIntParse (pyStrip raw) = none → pyFloatParse (pyStrip raw) = some f →
       smart_parse raw = .float f) ∧
    (pyStrip raw ≠ "" → pyLower (pyStrip raw) ≠ "true" →
       pyLower (pyStrip raw) ≠ "false" → pyIntParse (pyStrip raw) = none →
       pyFloatParse (pyStrip raw) = none → smart_parse raw = .str (pyStrip raw)) := by
  refine ⟨?_, ?_, ?_, ?_, ?_, ?_⟩
  · intro h; simp [smart_parse, h]
  · intro h
    have hs : pyStrip raw ≠ "" := by
      intro he; rw [he] at h; exact absurd h (by decide)
    simp [smart_parse, hs, h]
  · intro h
    have hs : pyStrip raw ≠ "" := by
      intro he; rw [he] at h; exact absurd h (by decide)
    simp [smart_parse, hs, h]
  · intro n ht hf hint
    by_cases hs : pyStrip raw = ""
    · rw [hs, show pyIntParse "" = none from by decide] at hint
      exact Option.noConfusion hint
    · simp [smart_parse, hs, ht, hf, hint]
  · intro f ht hf hint hfl
    by_cases hs : pyStrip raw = ""
    · rw [hs, show pyFloatParse "" = none from by decide] at hfl
      exact Option.noConfusion hfl
    · simp [smart_parse, hs, ht, hf, hint, hfl]
  · intro hs ht hf hint hfl
    simp [smart_parse, hs, ht, hf, hint, hfl]

/-- Witness for C3: the integer branch at a concrete input, all branch
hypotheses discharged by evaluation. -/
theorem C3_witness : smart_parse " 42 " = .int 42 :=
  (C3_smart_parse_spec " 42 ").2.2.2.1 42 (by decide) (by decide) (by decide)

/-! ## Claim C6: loadGrid normalization invariant -/

/-- Claim C6: `_load_df` establishes the uniform-width invariant: an empty
fetch gives an empty grid; otherwise the first row, stripped, becomes the
headers, and every remaining row is right-padded with empty strings or
truncated to exactly the header count, so every data row has the header
count as its length; in particular the fetch `[[Name, Age], [Bob]]` loads
as headers `[Name, Age]` with the single padded data row `[Bob, ""]`. -/
theorem C6_load_df_spec :
    (_load_df [] = ⟨[], []⟩) ∧
    (∀ first rest,
       (_load_df (first :: rest)).headers = first.map pyStrip ∧
       (_load_df (first :: rest)).dataRows =
         rest.map (fun r =>
           if r.length ≤ first.length then
             r ++ List.replicate (first.length - r.length) ""
           else r.take first.length) ∧
       (_load_df (first :: rest)).Wf) ∧
    _load_df [["Name", "Age"], ["Bob"]] = ⟨["Name", "Age"], [["Bob", ""]]⟩ := by
  have hnorm : ∀ (n : Nat) (r : List String),
      normalizeRow n r =
        if r.length ≤ n then r ++ List.replicate (n - r.length) "" else r.take n := by
    intro n r
    unfold normalizeRow
    rcases Nat.lt_trichotomy r.length n with h | h | h
    · rw [if_pos h, if_pos (Nat.le_of_lt h)]
    · rw [if_neg (by omega), if_neg (by omega), if_pos (by omega), h]
      simp
    · rw [if_neg (by omega), if_pos h, if_neg (by omega)]
  have hlen : ∀ (n : Nat) (r : List String), (normalizeRow n r).length = n := by
    intro n r
    unfold normalizeRow
    rcases Nat.lt_trichotomy r.length n with h | h | h
    · rw [if_pos h]
      simp only [List.length_append, List.length_replicate]
      omega
    · rw [if_neg (by omega), if_neg (by omega)]; exact h
    · rw [if_neg (by omega), if_pos h]
      simp only [List.length_take]
      omega
  refine ⟨rfl, ?_, by decide⟩
  intro first rest
  refine ⟨rfl, ?_, ?_⟩
  · show rest.map (normalizeRow (first.map pyStrip).length) = _
    rw [List.length_map]
    exact List.map_congr_left fun r _ => hnorm first.length r
  · intro r hr
    show r.length = (first.map pyStrip).length
    rw [List.length_map]
    simp only [_load_df, List.mem_map] at hr
    obtain ⟨r0, _, hr0⟩ := hr
    rw [← hr0, ← List.length_map first pyStrip, hlen]

/-- Witness for C6 discharging the membership hypothesis of the
well-formedness conjunct at a concrete grid. -/
theorem C6_witness : (["x"] : List String).length = (["H"].map pyStrip).length :=
  ((C6_load_df_spec.2.1 ["H"] [["x", "y"]]).2.2) ["x"] (by decide)

/-! ## Claim C2: row resolution of the cell read -/

/-- Claim C2: on the cell-read operation, a row number below 1 fails with
InvalidRow (checked before the column resolves); row 1 returns the header
cell of the resolved column as the value; a row number of at least 2 maps
to zero-based data index `row - 2`, and an index at or beyond the data-row
count reads as the empty string instead of an error. -/
theorem C2_get_cell_value_spec (g : Grid) (row : Int) (col : String) :
    (row < 1 → get_cell_value g row col = .error .invalidRow) ∧
    (∀ c0, _col_to_zero_based g.headers col = .ok c0 →
       (row = 1 → get_cell_value g row col =
          .ok ⟨1, col, g.headers.getD c0 "", g.headers.getD c0 ""⟩) ∧
       (2 ≤ row →
          (row - 2 < (g.dataRows.length : Int) →
             get_cell_value g row col =
               .ok ⟨row, col, g.headers.getD c0 "",
                    (g.dataRows.getD (row - 2).toNat []).getD c0 ""⟩) ∧
          ((g.dataRows.length : Int) ≤ row - 2 →
             get_cell_value g row col =
               .ok ⟨row, col, g.headers.getD c0 "", ""⟩))) := by
  refine ⟨?_, ?_⟩
  · intro h
    simp [get_cell_value, h]
  · intro c0 hc
    refine ⟨?_, ?_⟩
    · intro h1
      subst h1
      simp [get_cell_value, hc]
    · intro h2
      have hn1 : ¬ row < 1 := by omega
      have hne : ¬ row = 1 := by omega
      refine ⟨?_, ?_⟩
      · intro hin
        have ha : ¬ row < 2 := by omega
        have hb : ¬ (g.dataRows.length : Int) ≤ row - 2 := by omega
        simp [get_cell_value, hc, hn1, hne, ha, hb]
      · intro hout
        simp [get_cell_value, hc, hn1, hne, hout]

/-- Witness for C2: a concrete in-range read through the theorem. -/
theorem C2_witness :
    get_cell_value ⟨["H"], [["v"]]⟩ 2 "A" =
      .ok ⟨2, "A", (["H"] : List String).getD 0 "",
           (([["v"]] : List (List String)).getD ((2 : Int) - 2).toNat []).getD 0 ""⟩ :=
  (((C2_get_cell_value_spec ⟨["H"], [["v"]]⟩ 2 "A").2 0 (by decide)).2
    (by omega)).1 (by decide)

/-! ## Claim C9: the cell read only ever reports blank or string -/

/-- Claim C9 (implicit): the `/cell` endpoint stringifies the value it
returns, so classifying it yields blank exactly for the empty string and
string otherwise; a cell read through this path never reports type number
or boolean. -/
theorem C9_cell_read_type (g : Grid) (row : Int) (col : String)
    (r : GetCellResp) (h : get_cell g row col = .ok r) :
    r.type = classify (.str r.value) ∧
    (r.value = "" → r.type = "blank") ∧
    (r.value ≠ "" → r.type = "string") ∧
    r.type ≠ "number" ∧ r.type ≠ "boolean" := by
  unfold get_cell at h
  rcases heq : get_cell_value g row col with e | c
  · rw [heq] at h
    exact Except.noConfusion h
  · rw [heq] at h
    simp only [Except.ok.injEq] at h
    subst h
    dsimp only
    refine ⟨rfl, ?_, ?_, ?_, ?_⟩
    · intro hv
      simp [classify, pyEqEmptyString, hv]
    · intro hv
      simp [classify, pyEqEmptyString, pyIsBool, pyIsIntOrFloat, hv]
    · by_cases hv : c.value = "" <;>
        simp [classify, pyEqEmptyString, pyIsBool, pyIsIntOrFloat, hv]
    · by_cases hv : c.value = "" <;>
        simp [classify, pyEqEmptyString, pyIsBool, pyIsIntOrFloat, hv]

/-- Witness for C9 at a concrete read. -/
theorem C9_witness : (⟨2, "A", "H", "v", "string"⟩ : GetCellResp).type = "string" :=
  (C9_cell_read_type ⟨["H"], [["v"]]⟩ 2 "A" ⟨2, "A", "H", "v", "string"⟩
    (by decide)).2.2.1 (by decide)

/-! ## Claim C5: bounds of a grid without data rows -/

/-- Counterexample to C5 as stated: with headers present and zero data
rows the claim requires the used-column rule for `lastCol` (here every
header is blank, so `lastCol = 0`); the code instead returns the full
header count from the `df.empty` branch, with no used-column scan. -/
theorem C5_counterexample :
    pyStrip "" = "" ∧
    _actual_last_row_col ⟨[""], []⟩ = (1, 1) ∧
    (1 : Nat) ≠ 0 := by
  refine ⟨by decide, by decide, by decide⟩

/-- Claim C5 amended: on a grid with zero data rows the result is
`lastRow = 0` with no headers and `lastRow = 1` otherwise, and `lastCol`
is always the full header count — trailing blank headers included, so the
used-column rule of the scan branch does not apply here. -/
theorem C5_bounds_no_data (g : Grid) (h : g.dataRows = []) :
    _actual_last_row_col g =
      ((if g.headers.isEmpty then 0 else 1), g.headers.length) := by
  unfold _actual_last_row_col
  rw [h]
  simp

/-- Witness for C5 at a concrete header-only grid. -/
theorem C5_witness : _actual_last_row_col ⟨["A"], []⟩ = (1, 1) :=
  (C5_bounds_no_data ⟨["A"], []⟩ rfl).trans (by decide)

/-! ## Claim C1: column resolution of the read paths -/

/-- Counterexample to C1 as stated: the designator is stripped before any
matching, so a non-single-letter designator that equals no header
case-sensitively can still resolve (here to index 0) instead of failing
with InvalidColumn. -/
theorem C1_counterexample :
    _col_to_zero_based ["Name"] " Name" = .ok 0 ∧
    isSingleAsciiLetter " Name" = false ∧
    " Name" ∉ (["Name"] : List String) := by
  refine ⟨by decide, by decide, by decide⟩

/-- Claim C1 amended: `_col_to_zero_based` first strips the designator;
the stripped form then follows the claimed contract: a single ASCII
letter resolves case-insensitively to `letter - 'A'` (letter form first,
regardless of any header of the same name) and fails with OutOfRange at
or beyond the header count; any other stripped designator is looked up as
a case-sensitive exact header name, and fails with InvalidColumn when
absent. -/
theorem C1_resolve_column_spec (headers : List String) (col : String) :
    (∀ ch, (pyStrip col).data = [ch] → isAsciiLetterChar ch = true →
       (((pyUpperChar ch).toNat - 65) < headers.length →
          _col_to_zero_based headers col = .ok ((pyUpperChar ch).toNat - 65)) ∧
       (headers.length ≤ (pyUpperChar ch).toNat - 65 →
          _col_to_zero_based headers col = .error (.outOfRange col))) ∧
    (isSingleAsciiLetter (pyStrip col) = false →
       (pyStrip col ∈ headers →
          _col_to_zero_based headers col = .ok (List.indexOf (pyStrip col) headers)) ∧
       (pyStrip col ∉ headers →
          _col_to_zero_based headers col = .error (.invalidColumn col))) := by
  have hlookup : ∀ (c : String),
      (c ∈ headers → headerLookup headers col c = .ok (List.indexOf c headers)) ∧
      (c ∉ headers → headerLookup headers col c = .error (.invalidColumn col)) := by
    intro c
    constructor
    · intro hmem
      rw [headerLookup, if_pos (List.elem_iff.mpr hmem)]
    · intro hmem
      rw [headerLookup, if_neg]
      intro hcon
      exact hmem (List.elem_iff.mp hcon)
  refine ⟨?_, ?_⟩
  · intro ch hdata hletter
    obtain ⟨h65, h90⟩ := pyUpperChar_range_of_letter hletter
    simp only [_col_to_zero_based]
    rw [hdata]
    simp only [hletter, if_true]
    constructor
    · intro hin
      rw [if_neg (by omega)]
      have : (((pyUpperChar ch).toNat : Int) - 65).toNat = (pyUpperChar ch).toNat - 65 := by
        omega
      rw [this]
    · intro hout
      rw [if_pos (Or.inr (by omega))]
  · intro hsingle
    simp only [_col_to_zero_based]
    rcases hd : (pyStrip col).data with _ | ⟨ch, _ | ⟨c2, t⟩⟩
    · exact hlookup (pyStrip col)
    · have hch : isAsciiLetterChar ch = false := by
        rw [isSingleAsciiLetter, hd] at hsingle
        exact hsingle
      simp only [hch, Bool.false_eq_true, if_false]
      exact hlookup (pyStrip col)
    · exact hlookup (pyStrip col)

/-- Witness for C1 exercising the letter branch of the amended contract at
a concrete input. -/
theorem C1_witness : _col_to_zero_based ["X", "Y"] " b " = .ok (('B').toNat - 65) :=
  ((C1_resolve_column_spec ["X", "Y"] " b ").1 'b' (by decide) (by decide)).1 (by decide)

/-! ## Claim C4: bounds of a grid with data rows -/

/-- Counterexample to C4 as stated: a well-formed grid with no headers and
one (necessarily empty) data row has no used data row, so the claim
requires `lastRow = 1`; the code takes the `df.empty` branch (the
DataFrame has zero columns) and returns `lastRow = 0`. -/
theorem C4_counterexample :
    (⟨[], [[]]⟩ : Grid).Wf ∧
    (⟨[], [[]]⟩ : Grid).dataRows ≠ [] ∧
    (∀ r ∈ (⟨[], [[]]⟩ : Grid).dataRows, rowUsed r = false) ∧
    (_actual_last_row_col ⟨[], [[]]⟩).1 = 0 := by
  refine ⟨by decide, by decide, by decide, by decide⟩

/-- Claim C4 amended: on every well-formed Grid with at least one data row
and at least one header column, `lastRow` is 2 plus the zero-based index
of the last data row with a used cell (1 when none is used), and
`lastCol` is 1 plus the highest used zero-based column index (0 when no
column is used), a column being used when its header is nonempty or some
data row has nonempty stripped text there; in particular headers
`[A, B, C]` with data rows `[[1, 2, ""], ["", "", ""]]` give `(2, 3)`. -/
theorem C4_bounds_with_data (g : Grid) (_hwf : g.Wf)
    (hrows : g.dataRows ≠ []) (hheads : g.headers ≠ []) :
    ((∃ k r, g.dataRows[k]? = some r ∧ rowUsed r = true ∧
        (∀ j r2, k < j → g.dataRows[j]? = some r2 → rowUsed r2 = false) ∧
        (_actual_last_row_col g).1 = 2 + k) ∨
     ((∀ r ∈ g.dataRows, rowUsed r = false) ∧ (_actual_last_row_col g).1 = 1)) ∧
    ((∃ j, j < g.headers.length ∧ colUsed g j = true ∧
        (∀ i, j < i → i < g.headers.length → colUsed g i = false) ∧
        (_actual_last_row_col g).2 = j + 1) ∨
     ((∀ j, j < g.headers.length → colUsed g j = false) ∧
        (_actual_last_row_col g).2 = 0)) ∧
    _actual_last_row_col ⟨["A", "B", "C"], [["1", "2", ""], ["", "", ""]]⟩ = (2, 3) := by
  have hc1 : g.dataRows.isEmpty = false := List.isEmpty_eq_false.mpr hrows
  have hc2 : g.headers.isEmpty = false := List.isEmpty_eq_false.mpr hheads
  have hval : _actual_last_row_col g =
      ((match lastTrueIdx (g.dataRows.map rowUsed) with
        | some i => 2 + i
        | none => 1),
       (match lastTrueIdx (List.zipWith (· || ·) (g.headers.map cellUsed)
                ((List.range g.headers.length).map (dataColAny g))) with
        | some j => j + 1
        | none => 0)) := by
    unfold _actual_last_row_col
    rw [hc1, hc2]
    simp
  have hcomb_at : ∀ j, j < g.headers.length →
      (List.zipWith (· || ·) (g.headers.map cellUsed)
        ((List.range g.headers.length).map (dataColAny g)))[j]? =
      some (colUsed g j) := by
    intro j hj
    have h1 : (g.headers.map cellUsed)[j]? = some (cellUsed (g.headers.getD j "")) := by
      rw [List.getElem?_map, List.getElem?_eq_getElem hj, List.getD_eq_getElem g.headers "" hj]
      rfl
    have h2 : ((List.range g.headers.length).map (dataColAny g))[j]? =
        some (dataColAny g j) := by
      rw [List.getElem?_map, List.getElem?_range hj]
      rfl
    rw [zipWith_or_getElem h1 h2]
    rfl
  have hcomb_len : (List.zipWith (· || ·) (g.headers.map cellUsed)
      ((List.range g.headers.length).map (dataColAny g))).length =
      g.headers.length := by
    simp
  refine ⟨?_, ?_, by decide⟩
  · rcases hlt : lastTrueIdx (g.dataRows.map rowUsed) with _ | k
    · right
      constructor
      · intro r hr
        obtain ⟨i, hi, he⟩ := List.mem_iff_getElem.mp hr
        have hmap : (g.dataRows.map rowUsed)[i]? = some (rowUsed r) := by
          rw [List.getElem?_map, List.getElem?_eq_getElem hi, he]
          rfl
        have := lastTrueIdx_none hlt i (by simpa using hi)
        rw [hmap] at this
        simpa using this
      · rw [hval, hlt]
    · left
      obtain ⟨h1, h2⟩ := lastTrueIdx_some hlt
      rw [List.getElem?_map] at h1
      obtain ⟨r, hr, hru⟩ := Option.map_eq_some'.mp h1
      refine ⟨k, r, hr, hru, ?_, by rw [hval, hlt]⟩
      intro j r2 hkj hj2
      have hjlen : j < (g.dataRows.map rowUsed).length := by
        have := (List.getElem?_eq_some.mp hj2).choose
        simpa using this
      have := h2 j hkj hjlen
      rw [List.getElem?_map, hj2] at this
      simpa using this
  · rcases hlt : lastTrueIdx (List.zipWith (· || ·) (g.headers.map cellUsed)
        ((List.range g.headers.length).map (dataColAny g))) with _ | j
    · right
      constructor
      · intro j hj
        have := lastTrueIdx_none hlt j (by rw [hcomb_len]; exact hj)
        rw [hcomb_at j hj] at this
        simpa using this
      · rw [hval, hlt]
    · left
      obtain ⟨h1, h2⟩ := lastTrueIdx_some hlt
      have hjlen : j < g.headers.length := by
        have := lastTrueIdx_some_lt hlt
        rwa [hcomb_len] at this
      rw [hcomb_at j hjlen] at h1
      refine ⟨j, hjlen, by simpa using h1, ?_, by rw [hval, hlt]⟩
      intro i hji hi
      have := h2 i hji (by rw [hcomb_len]; exact hi)
      rw [hcomb_at i hi] at this
      simpa using this

/-- Witness for C4: the amended bounds contract applied at the concrete
grid of the claim, extracting its closed example conjunct. -/
theorem C4_witness :
    _actual_last_row_col ⟨["A", "B", "C"], [["1", "2", ""], ["", "", ""]]⟩ = (2, 3) :=
  (C4_bounds_with_data ⟨["A", "B", "C"], [["1", "2", ""], ["", "", ""]]⟩
    (by decide) (by decide) (by decide)).2.2

/-! ## Claim C7: two-column aggregation -/

theorem zipWith_add_map {α : Type} (rows : List α) (f h : α → ℚ) :
    List.zipWith (· + ·) (rows.map f) (rows.map h) = rows.map fun r => f r + h r := by
  induction rows with
  | nil => rfl
  | cons r t ih => simp [ih]

/-- Claim C7: `add_cols`, for every grid, numeric parser and resolvable
input columns: each data row's two cells are coerced with parse failures
becoming 0, one per-row sum is produced per data row, the output header is
written to the output column's header cell (row 1) and the sums to that
column starting at spreadsheet row 2, and the operation returns the data
row count — it never fails on non-numeric cell content, which only
surfaces as zero summands. -/
theorem C7_add_cols_spec (toNum : String → Option ℚ) (g : Grid)
    (colA colB outCol outHeader : String) (aIdx bIdx : Nat) (oc : Char)
    (_hwf : g.Wf)
    (ha : _col_to_zero_based g.headers colA = .ok aIdx)
    (hb : _col_to_zero_based g.headers colB = .ok bIdx)
    (ho : (pyUpper outCol).data = [oc]) :
    add_cols toNum g colA colB outCol outHeader =
      .ok ⟨(if g.dataRows = [] then
              [WriteOp.updateCell 1 ((oc.toNat : Int) - 65 + 1) (.str outHeader)]
            else
              [WriteOp.updateCell 1 ((oc.toNat : Int) - 65 + 1) (.str outHeader),
               WriteOp.updateRange oc 2 (2 + (g.dataRows.length : Int) - 1)
                 (g.dataRows.map fun r =>
                   (toNum (r.getD aIdx "")).getD 0 + (toNum (r.getD bIdx "")).getD 0)]),
           g.dataRows.length, outCol, outHeader⟩ := by
  have hchar : Char.ofNat (65 + ((oc.toNat : Int) - 65)).toNat = oc := by
    rw [show (65 + ((oc.toNat : Int) - 65)).toNat = oc.toNat by omega, Char.ofNat_toNat]
  simp only [add_cols, ha, hb, ho]
  rw [zipWith_add_map g.dataRows
    (fun r => toNumCoerce toNum (r.getD aIdx "")) (fun r => toNumCoerce toNum (r.getD bIdx ""))]
  by_cases hrows : g.dataRows = []
  · simp [hrows, toNumCoerce]
  · have hne : (g.dataRows.map fun r =>
        toNumCoerce toNum (r.getD aIdx "") + toNumCoerce toNum (r.getD bIdx "")).isEmpty
        = false := by
      rw [List.isEmpty_eq_false]
      simpa using hrows
    simp [hne, hrows, hchar, toNumCoerce]

/-- Witness for C7 at a concrete grid, parser and columns, with one
non-numeric cell coerced to zero inside the written sums. -/
theorem C7_witness :
    add_cols toNumEx ⟨["A", "B"], [["1", "x"]]⟩ "A" "B" "c" "sum" =
      .ok ⟨[WriteOp.updateCell 1 ((('C').toNat : Int) - 65 + 1) (.str "sum"),
            WriteOp.updateRange 'C' 2 (2 + ((1 : Nat) : Int) - 1)
              [(toNumEx "1").getD 0 + (toNumEx "x").getD 0]],
           1, "c", "sum"⟩ := by
  have h := C7_add_cols_spec toNumEx ⟨["A", "B"], [["1", "x"]]⟩ "A" "B" "c" "sum" 0 1 'C'
    (by decide) (by decide) (by decide) (by decide)
  simpa using h

/-! ## Claim C10: the write path is letter-only -/

theorem upperIsAZ_cases {c : Char} (h : upperIsAZ c = true) :
    isAsciiLetterChar c = true ∨ c = 'ı' ∨ c = 'ſ' := by
  have h2 : (isAsciiLetterChar c = true ∨ c = 'ı') ∨ c = 'ſ' := by
    simpa [upperIsAZ, Bool.or_eq_true, decide_eq_true_eq] using h
  tauto

/-- An accepted character uppercases into the `A`-`Z` code range. -/
theorem upperIsAZ_range {c : Char} (h : upperIsAZ c = true) :
    65 ≤ (pyUpperChar c).toNat ∧ (pyUpperChar c).toNat ≤ 90 := by
  rcases upperIsAZ_cases h with hl | rfl | rfl
  · exact pyUpperChar_range_of_letter hl
  · decide
  · decide

theorem upperIsAZ_false_parts {c : Char} (h : upperIsAZ c = false) :
    isAsciiLetterChar c = false ∧ c ≠ 'ı' ∧ c ≠ 'ſ' := by
  refine ⟨?_, ?_, ?_⟩
  · by_contra hb
    rw [Bool.not_eq_false] at hb
    rw [upperIsAZ, hb] at h
    simp at h
  · intro heq
    rw [heq] at h
    exact absurd h (by decide)
  · intro heq
    rw [heq] at h
    exact absurd h (by decide)

theorem pyUpperChar_upper_fix {c : Char} (h : upperIsAZ c = true) :
    pyUpperChar (pyUpperChar c) = pyUpperChar c := by
  obtain ⟨h1, h2⟩ := upperIsAZ_range h
  exact pyUpperChar_fix_of_range h1 h2

/-- A character the write path does not accept is fixed by the uppercase
model (it is neither a lowercase ASCII letter nor a special character). -/
theorem pyUpperChar_fix_of_not_upperAZ {c : Char} (h : upperIsAZ c = false) :
    pyUpperChar c = c := by
  obtain ⟨hlet, hni, hns⟩ := upperIsAZ_false_parts h
  apply pyUpperChar_eq_of_not_special ?_ hni hns
  intro ⟨ha, hb⟩
  have hcon : isAsciiLetterChar c = true := isAsciiLetterChar_iff.mpr (Or.inr ⟨ha, hb⟩)
  rw [hlet] at hcon
  exact Bool.noConfusion hcon

/-- A successful `col_to_index` forces the uppercased designator to be one
single character in the `A`-`Z` range, with the returned index
`letter - 'A' + 1` (the regex-passing letter-plus-newline form raises
before returning). -/
theorem col_to_index_ok_iff {s : String} {n : Nat} :
    col_to_index s = .ok n ↔
      ∃ ch, (pyUpper s).data = [ch] ∧ 65 ≤ ch.toNat ∧ ch.toNat ≤ 90 ∧
        n = ch.toNat - 65 + 1 := by
  simp only [col_to_index]
  rcases hd : (pyUpper s).data with _ | ⟨ch, _ | ⟨c2, _ | ⟨c3, t⟩⟩⟩
  · show Except.error (SheetErr.invalidColLetter (pyUpper s)) = Except.ok n ↔ _
    constructor
    · intro h; exact Except.noConfusion h
    · rintro ⟨ch, hch, -⟩
      exact List.noConfusion hch
  · show (if ('A' ≤ ch ∧ ch ≤ 'Z') then
            (Except.ok (ch.toNat - 65 + 1) : Except SheetErr Nat)
          else Except.error (SheetErr.invalidColLetter (pyUpper s))) = Except.ok n ↔ _
    by_cases hr : ('A' ≤ ch ∧ ch ≤ 'Z')
    · rw [if_pos hr]
      obtain ⟨hr1, hr2⟩ := hr
      rw [char_le_iff_toNat] at hr1 hr2
      constructor
      · intro h
        simp only [Except.ok.injEq] at h
        exact ⟨ch, rfl, by simpa using hr1, by simpa using hr2, h.symm⟩
      · rintro ⟨ch2, hch2, -, -, hn⟩
        injection hch2 with h1 h2
        subst h1
        rw [hn]
    · rw [if_neg hr]
      constructor
      · intro h; exact Except.noConfusion h
      · rintro ⟨ch2, hch2, h65, h90, -⟩
        injection hch2 with h1 h2
        subst h1
        refine absurd ⟨?_, ?_⟩ hr <;> rw [char_le_iff_toNat]
        · simpa using h65
        · simpa using h90
  · show (if (('A' ≤ ch ∧ ch ≤ 'Z') ∧ c2 = '\n') then
            (Except.error SheetErr.pyError : Except SheetErr Nat)
          else Except.error (SheetErr.invalidColLetter (pyUpper s))) = Except.ok n ↔ _
    constructor
    · intro h
      split_ifs at h
    · rintro ⟨ch2, hch2, -⟩
      simp at hch2
  · show Except.error (SheetErr.invalidColLetter (pyUpper s)) = Except.ok n ↔ _
    constructor
    · intro h; exact Except.noConfusion h
    · rintro ⟨ch2, hch2, -⟩
      simp at hch2

/-- Counterexample to C10 as stated: CPython `str.upper` runs before the
`^[A-Z]$` check and maps dotless i (U+0131) to `I`, so the write path
accepts this designator — a single character that is not an alphabetic
`A`-`Z`/`a`-`z` letter — and writes to column `I` (1-based index 9).
Acceptance is therefore not equivalent to the designator being exactly
one alphabetic character. -/
theorem C10_counterexample :
    set_cell 2 "ı" (some "5") =
      .ok ⟨.updateCell 2 9 (.int 5), 2, "I", 9⟩ ∧
    isSingleAsciiLetter "ı" = false := by
  refine ⟨by decide, by decide⟩

/-- Claim C10 amended: the cell-write path resolves its column through
the letter-only `col_to_index`, never through `_col_to_zero_based`: a
designator is accepted exactly when it is one character whose Python
uppercase form is a single letter `A`-`Z` — an ASCII letter, or U+0131 or
U+017F — in which case it maps to the 1-based index
`upper(char) - 'A' + 1` with no bound check against any header count
(neither `set_cell` nor `col_to_index` takes a grid at all, so every
accepted designator works regardless of sheet width); everything else —
header names in particular — is never accepted. -/
theorem C10_set_cell_letter_only (row : Int) (col : String) (value : Option String) :
    (∀ c, col.data = [c] → upperIsAZ c = true →
       set_cell row col value =
         .ok ⟨.updateCell row (((pyUpperChar c).toNat - 65 + 1 : Nat) : Int)
                (smart_parse (value.getD "")),
              row, pyUpper col, (pyUpperChar c).toNat - 65 + 1⟩) ∧
    ((∀ c, col.data = [c] → upperIsAZ c = false) →
       ∀ out, set_cell row col value ≠ .ok out) := by
  constructor
  · intro c hdata hletter
    obtain ⟨h65, h90⟩ := upperIsAZ_range hletter
    have hup : (pyUpper (pyUpper col)).data = [pyUpperChar c] := by
      simp [pyUpper, hdata, pyUpperChar_upper_fix hletter]
    have hcti : col_to_index (pyUpper col) = .ok ((pyUpperChar c).toNat - 65 + 1) := by
      simp only [col_to_index]
      rw [hup]
      show (if ('A' ≤ pyUpperChar c ∧ pyUpperChar c ≤ 'Z') then
              (Except.ok ((pyUpperChar c).toNat - 65 + 1) : Except SheetErr Nat)
            else Except.error (SheetErr.invalidColLetter (pyUpper (pyUpper col)))) =
          Except.ok ((pyUpperChar c).toNat - 65 + 1)
      have hA : 'A' ≤ pyUpperChar c := by
        rw [char_le_iff_toNat, show ('A').toNat = 65 from by decide]
        exact h65
      have hZ : pyUpperChar c ≤ 'Z' := by
        rw [char_le_iff_toNat, show ('Z').toNat = 90 from by decide]
        exact h90
      rw [if_pos ⟨hA, hZ⟩]
    simp only [set_cell, hcti]
  · intro hno out hok
    simp only [set_cell] at hok
    rcases hcti : col_to_index (pyUpper col) with e | idx
    · rw [hcti] at hok
      exact Except.noConfusion hok
    · obtain ⟨ch, hch, h65, h90, -⟩ := col_to_index_ok_iff.mp hcti
      have hmap : col.data.map (fun x => pyUpperChar (pyUpperChar x)) = [ch] := by
        have : (pyUpper (pyUpper col)).data =
            col.data.map fun x => pyUpperChar (pyUpperChar x) := by
          simp [pyUpper, List.map_map]
        rw [← this, hch]
      rcases hcd : col.data with _ | ⟨c0, _ | ⟨c1, t⟩⟩
      · rw [hcd] at hmap
        exact List.noConfusion hmap
      · rw [hcd] at hmap
        simp only [List.map_cons, List.map_nil, List.cons.injEq, and_true] at hmap
        have hc0 : upperIsAZ c0 = false := hno c0 hcd
        rw [pyUpperChar_fix_of_not_upperAZ hc0, pyUpperChar_fix_of_not_upperAZ hc0] at hmap
        subst hmap
        have hl : isAsciiLetterChar c0 = true :=
          isAsciiLetterChar_iff.mpr (Or.inl ⟨h65, h90⟩)
        rw [upperIsAZ, hl] at hc0
        simp at hc0
      · rw [hcd] at hmap
        have := congrArg List.length hmap
        simp at this

/-- Witness for C10: a lowercase ASCII letter designator accepted on the
write path at a concrete cell, through the amended theorem. -/
theorem C10_witness :
    set_cell 5 "z" (some "42") =
      .ok ⟨.updateCell 5 (((pyUpperChar 'z').toNat - 65 + 1 : Nat) : Int)
             (smart_parse ((some "42").getD "")),
           5, pyUpper "z", (pyUpperChar 'z').toNat - 65 + 1⟩ :=
  (C10_set_cell_letter_only 5 "z" (some "42")).1 'z' (by decide) (by decide)

